import Mathlib

/-!
Verification of the ZipbooksInvoiceParser extraction pipeline
(`streamlit_app.py`): a shallow embedding of the document normalizer
(`convert_pdf_to_images`), the response sanitizer (the `strip` /
`re.sub` lines of `process_file`), a model of Python's strict
`json.loads`, and the three-pass orchestration of `process_file`.

Strings are modelled as `List Char` (`Str`).  Braces inside string
literals are written with the escapes \x7b and \x7d.
-/

/-- Character model of a Python string. -/
abbrev Str := List Char

/-- Whitespace for Python `str.strip` and the regex class `\s`
    (ASCII fragment: space, tab, newline, carriage return,
    vertical tab \x0b, form feed \x0c). -/
def isPyWs (c : Char) : Bool :=
  c = ' ' || c = '\t' || c = '\n' || c = '\r' || c = '\x0b' || c = '\x0c'

/-- Whitespace recognised between tokens by Python's `json` decoder
    (only space, tab, newline, carriage return). -/
def isJsonWs (c : Char) : Bool :=
  c = ' ' || c = '\t' || c = '\n' || c = '\r'

/-- Python `str.lstrip()` on the ASCII whitespace set. -/
def lstripL : Str → Str
  | [] => []
  | c :: cs => if isPyWs c then lstripL cs else c :: cs

/-- Python `str.rstrip()` on the ASCII whitespace set. -/
def rstripL : Str → Str
  | [] => []
  | c :: cs =>
    let r := rstripL cs
    if r.isEmpty then (if isPyWs c then [] else [c]) else c :: r

/-- Python `str.strip()` on the ASCII whitespace set. -/
def stripL (l : Str) : Str := rstripL (lstripL l)

/-- Boolean prefix test (`hasPre p l` iff `p` is a prefix of `l`). -/
def hasPre : Str → Str → Bool
  | [], _ => true
  | _ :: _, [] => false
  | a :: as, b :: bs => a = b && hasPre as bs

/-- Boolean suffix test. -/
def hasSuf (p l : Str) : Bool := hasPre p.reverse l.reverse

/-- Drop the last `n` characters. -/
def dropSuf (n : Nat) (l : Str) : Str := (l.reverse.drop n).reverse

/-- The opening fence marker matched by `re.sub(r'^```json\s*', '', t)`. -/
def fenceOpen : Str := ("```json").data

/-- The closing fence marker matched by `re.sub(r'\s*```$', '', t)`. -/
def fenceClose : Str := ("```").data

/-- Model of `re.sub(r'^```json\s*', '', t)`: without `re.MULTILINE`,
    `^` anchors at the start of the string only, so at most one match:
    if the text starts with the literal marker, the marker and the
    following whitespace run are removed; otherwise nothing changes. -/
def stripOpenFence (l : Str) : Str :=
  if hasPre fenceOpen l then lstripL (l.drop 7) else l

/-- Model of `re.sub(r'\s*```$', '', t)`.  The anchored pattern has at
    most one match, ending either at the end of the string or (Python
    `$` semantics) just before a single final newline; the leftmost
    such match covers the maximal whitespace run before the fence. -/
def stripCloseFence (l : Str) : Str :=
  if hasSuf fenceClose l then rstripL (dropSuf 3 l)
  else if hasSuf (("```\n").data) l then rstripL (dropSuf 4 l) ++ ['\n']
  else l

/-- The sanitizer of `process_file` lines 165-167:
    `json_text = json_response.text.strip()` followed by the two
    anchored `re.sub` marker-stripping calls, in that order. -/
def sanitizeResponse (l : Str) : Str :=
  stripCloseFence (stripOpenFence (stripL l))

/-- The fenced form `` ```json\n<J>\n``` `` considered by the spec's
    round-trip property. -/
def fenced (J : Str) : Str := ("```json\n").data ++ J ++ ("\n```").data

/-- Parsed JSON values, as produced by Python's `json.loads`.
    Numbers keep their source literal (their numeric value is never
    inspected by the pipeline); objects keep their members in source
    order (Python's dict would keep the last duplicate, a difference
    that no property below observes). -/
inductive Json where
  | null
  | bool (b : Bool)
  | num (lit : Str)
  | str (s : Str)
  | arr (elems : List Json)
  | obj (members : List (Str × Json))

/-- Hexadecimal digit value, for `\uXXXX` escapes. -/
def hexVal (c : Char) : Option Nat :=
  if c.isDigit then some (c.toNat - 48)
  else if 'a' ≤ c && c ≤ 'f' then some (c.toNat - 87)
  else if 'A' ≤ c && c ≤ 'F' then some (c.toNat - 55)
  else none

/-- One backslash escape inside a JSON string literal (strict mode).
    Surrogate-pair recombination for `\u` escapes is not modelled;
    each escape yields one scalar. -/
def escChar (e : Char) (rest : Str) : Option (Char × Str) :=
  if e = '"' then some ('"', rest)
  else if e = '\\' then some ('\\', rest)
  else if e = '/' then some ('/', rest)
  else if e = 'b' then some ('\x08', rest)
  else if e = 'f' then some ('\x0c', rest)
  else if e = 'n' then some ('\n', rest)
  else if e = 'r' then some ('\r', rest)
  else if e = 't' then some ('\t', rest)
  else if e = 'u' then
    match rest with
    | h1 :: h2 :: h3 :: h4 :: r =>
      match hexVal h1, hexVal h2, hexVal h3, hexVal h4 with
      | some a, some b, some c, some d =>
        some (Char.ofNat (((a * 16 + b) * 16 + c) * 16 + d), r)
      | _, _, _, _ => none
    | _ => none
  else none

/-- JSON string body after the opening quote: literal characters up to
    the closing quote, with strict rejection of raw control characters
    (Python `strict=True`). -/
def parseStrBody : Nat → Str → Option (Str × Str)
  | 0, _ => none
  | fuel + 1, l =>
    match l with
    | [] => none
    | '"' :: rest => some ([], rest)
    | '\\' :: e :: rest =>
      match escChar e rest with
      | none => none
      | some (c, r) =>
        match parseStrBody fuel r with
        | some (s, r2) => some (c :: s, r2)
        | none => none
    | c :: rest =>
      if c.toNat < 32 then none
      else
        match parseStrBody fuel rest with
        | some (s, r2) => some (c :: s, r2)
        | none => none

/-- Integer part of Python's `NUMBER_RE`: `-?(0|[1-9]\d*)` without the
    sign (handled by the caller); a leading `0` is never followed by
    more digits. -/
def parseIntDigits : Str → Option (Str × Str)
  | [] => none
  | c :: rest =>
    if c = '0' then some ([c], rest)
    else if c.isDigit then
      some (c :: rest.takeWhile Char.isDigit, rest.dropWhile Char.isDigit)
    else none

/-- Optional fraction group `(\.\d+)?`: taken only when the dot is
    followed by at least one digit, otherwise left in place. -/
def parseFrac (l : Str) : Str × Str :=
  match l with
  | '.' :: r =>
    match r.takeWhile Char.isDigit with
    | [] => ([], l)
    | ds => ('.' :: ds, r.dropWhile Char.isDigit)
  | _ => ([], l)

/-- Optional exponent group `([eE][-+]?\d+)?`. -/
def parseExp (l : Str) : Str × Str :=
  match l with
  | [] => ([], [])
  | e :: r =>
    if e = 'e' || e = 'E' then
      match r with
      | [] => ([], l)
      | s :: r2 =>
        if s = '+' || s = '-' then
          match r2.takeWhile Char.isDigit with
          | [] => ([], l)
          | ds => (e :: s :: ds, r2.dropWhile Char.isDigit)
        else
          match r.takeWhile Char.isDigit with
          | [] => ([], l)
          | ds => (e :: ds, r.dropWhile Char.isDigit)
    else ([], l)

/-- A JSON number at the head of the input, per Python's `NUMBER_RE`
    (`match` at the current index, greedy groups). -/
def parseNum (l : Str) : Option (Json × Str) :=
  let sl : Str × Str :=
    match l with
    | '-' :: r => (['-'], r)
    | _ => ([], l)
  match parseIntDigits sl.2 with
  | none => none
  | some (ip, l2) =>
    let fr := parseFrac l2
    let ex := parseExp fr.2
    some (Json.num (sl.1 ++ ip ++ fr.1 ++ ex.1), ex.2)

/-- Skip inter-token JSON whitespace (the decoder's `_w(s, idx)`). -/
def skipJWs : Str → Str
  | [] => []
  | c :: cs => if isJsonWs c then skipJWs cs else c :: cs

mutual

/-- One JSON value starting at the head of the input (no leading
    whitespace), following Python's `py_scanstring`/`scan_once`:
    literals `null/true/false` (plus `NaN`/`Infinity`/`-Infinity`,
    accepted by default), strings, arrays, objects and numbers. -/
def parseVal : Nat → Str → Option (Json × Str)
  | 0, _ => none
  | _ + 1, [] => none
  | fuel + 1, c :: rest =>
    if c = 'n' then
      (if hasPre (("ull").data) rest then some (Json.null, rest.drop 3) else none)
    else if c = 't' then
      (if hasPre (("rue").data) rest then some (Json.bool true, rest.drop 3) else none)
    else if c = 'f' then
      (if hasPre (("alse").data) rest then some (Json.bool false, rest.drop 4) else none)
    else if c = 'N' then
      (if hasPre (("aN").data) rest then some (Json.num (("NaN").data), rest.drop 2) else none)
    else if c = 'I' then
      (if hasPre (("nfinity").data) rest then some (Json.num (("Infinity").data), rest.drop 7) else none)
    else if c = '"' then
      match parseStrBody fuel rest with
      | some (s, r) => some (Json.str s, r)
      | none => none
    else if c = '[' then
      match skipJWs rest with
      | ']' :: r => some (Json.arr [], r)
      | l1 =>
        match parseItems fuel l1 with
        | some (vs, r) => some (Json.arr vs, r)
        | none => none
    else if c = '\x7b' then
      match skipJWs rest with
      | '\x7d' :: r => some (Json.obj [], r)
      | l1 =>
        match parseMembers fuel l1 with
        | some (ms, r) => some (Json.obj ms, r)
        | none => none
    else if c = '-' then
      (if hasPre (("Infinity").data) rest then some (Json.num (("-Infinity").data), rest.drop 8)
       else parseNum (c :: rest))
    else if c.isDigit then parseNum (c :: rest)
    else none

/-- Comma-separated array items; the input starts at a value. -/
def parseItems : Nat → Str → Option (List Json × Str)
  | 0, _ => none
  | fuel + 1, l =>
    match parseVal fuel l with
    | none => none
    | some (v, r) =>
      match skipJWs r with
      | ',' :: r2 =>
        match parseItems fuel (skipJWs r2) with
        | some (vs, r3) => some (v :: vs, r3)
        | none => none
      | ']' :: r2 => some ([v], r2)
      | _ => none

/-- Comma-separated object members; the input starts at a key quote. -/
def parseMembers : Nat → Str → Option (List (Str × Json) × Str)
  | 0, _ => none
  | fuel + 1, l =>
    match l with
    | '"' :: r =>
      match parseStrBody fuel r with
      | none => none
      | some (k, r1) =>
        match skipJWs r1 with
        | ':' :: r2 =>
          match parseVal fuel (skipJWs r2) with
          | none => none
          | some (v, r3) =>
            match skipJWs r3 with
            | ',' :: r4 =>
              match parseMembers fuel (skipJWs r4) with
              | some (ms, r5) => some ((k, v) :: ms, r5)
              | none => none
            | '\x7d' :: r4 => some ([(k, v)], r4)
            | _ => none
        | _ => none
    | _ => none

end

/-- Python's `json.loads`: skip leading whitespace, decode one value,
    then require only whitespace up to the end; `none` models a raised
    `json.JSONDecodeError`.  The fuel `2 * length + 2` dominates the
    recursion depth of any accepting run. -/
def json_loads (l : Str) : Option Json :=
  match parseVal (2 * l.length + 2) (skipJWs l) with
  | some (v, rest) => if skipJWs rest = [] then some v else none
  | none => none

/-- File-system artifacts created by one `process_file` invocation.
    Each constructor stands for one distinct concrete path used by the
    source: the `NamedTemporaryFile` pdf, `f"page_{i+1}.png"` (here
    indexed by the 0-based loop index `i`), `"temp_image.png"` and
    `'invalid_json_response.txt'`. -/
inductive FName where
  | tempPdf
  | pageFile (i : Nat)
  | tempImage
  | invalidJsonTxt
deriving DecidableEq

/-- Exceptions that the modelled code can raise: the `NameError` on
    `temp_pdf_path` in the `finally` block of `convert_pdf_to_images`,
    and a `PIL.Image.open` failure propagating out of `process_file`. -/
inductive PyErr where
  | nameError
  | imageOpenError
deriving DecidableEq

/-- The three extraction passes (their prompts are fixed constants in
    the source; only the pass identity matters to the pipeline). -/
inductive Pass where
  | jsonPass
  | summaryPass
  | csvPass
deriving DecidableEq

/-- One entry of `image_bytes_list`: the dict
    `{"mime_type": "image/png", "data": image_to_bytes(path)}`, with
    the bytes represented by the file they are read from. -/
structure PageImage where
  mime_type : String
  data : FName
deriving DecidableEq

/-- The environment of one `process_file` invocation: the uploaded
    file's declared type, which external operations succeed
    (`temp_pdf.write`, `convert_from_path`, `Image.open`), the
    credential pool `GEMINI_API_KEYS`, the stream of indices drawn by
    `random.choice`, and the backend `model.generate_content` as a
    function of the prompt and the configured api key. -/
structure Env where
  fileType : String
  pdfWriteOk : Bool
  renderedPages : Option Nat
  imageOpenOk : Bool
  keys : List String
  randStream : List Nat
  respond : Pass → String → String

/-- Model of `random.choice(GEMINI_API_KEYS)` inside
    `get_random_api_key`, driven by one index drawn from the random
    stream (`random.choice` is uniform over the pool; on an empty pool
    it raises, modelled by the `""` default never reached under the
    theorems' nonempty-pool environments). -/
def get_random_api_key (keys : List String) (r : Nat) : String :=
  keys.getD (r % keys.length) ""

/-- The single credential draw performed by `process_file` line 83:
    `genai.configure(api_key=get_random_api_key())`, consuming the
    head of the random stream. -/
def chosenKey (env : Env) : String :=
  get_random_api_key env.keys (env.randStream.headD 0)

/-- Model of `convert_pdf_to_images` (lines 30-54).  The body writes
    the upload to a temp pdf, renders it with `convert_from_path`,
    saves each page as `page_{i+1}.png` and returns the page paths;
    the bare `except Exception` swallows any failure after logging,
    and the `finally` block unlinks `temp_pdf_path`.  If the write
    fails before `temp_pdf_path` is assigned, the `finally` block
    itself raises `NameError` (and the temp pdf file persists); if
    rendering fails the function returns the pages saved so far
    (here: the empty list).  The second component tracks the files of
    this invocation existing on return. -/
def convert_pdf_to_images (env : Env) (fs : List FName) :
    Except PyErr (List FName) × List FName :=
  if env.pdfWriteOk then
    match env.renderedPages with
    | none => (Except.ok [], fs)
    | some n =>
      (Except.ok ((List.range n).map FName.pageFile),
       fs ++ (List.range n).map FName.pageFile)
  else (Except.error PyErr.nameError, fs ++ [FName.tempPdf])

/-- The observable outcome of one `process_file` run: the triple
    `(extracted_data, summary_text, csv_text)` it returns, plus the
    `image_bytes_list` sent to the backend, the files of this
    invocation still existing on return, and the backend calls made
    (pass, api key configured at call time). -/
structure RunOut where
  extracted_data : Json
  summary_text : String
  csv_text : String
  pages : List PageImage
  fsFinal : List FName
  callLog : List (Pass × String)

/-- Model of `process_file` (lines 72-233).  PDF uploads are
    normalized by `convert_pdf_to_images`; any other type is opened
    with PIL and re-saved as `temp_image.png`.  `image_bytes_list`
    tags every page with mime type `"image/png"`.  One api key is
    configured, then the three passes run; the JSON response is
    sanitized and parsed, and on `json.JSONDecodeError` the code sets
    `extracted_data = {}`, writes `invalid_json_response.txt` and
    removes the page image files (this cleanup lives inside the
    `except` block).  Summary and CSV passes always run. -/
def process_file (env : Env) : Except PyErr RunOut :=
  let norm : Except PyErr (List FName × List FName) :=
    if env.fileType = "application/pdf" then
      match convert_pdf_to_images env [] with
      | (Except.ok imgs, fs) => Except.ok (imgs, fs)
      | (Except.error e, _) => Except.error e
    else
      if env.imageOpenOk then Except.ok ([FName.tempImage], [FName.tempImage])
      else Except.error PyErr.imageOpenError
  match norm with
  | Except.error e => Except.error e
  | Except.ok (images, fs1) =>
    let pageImgs := images.map (fun p => PageImage.mk ("image/png") p)
    let key := chosenKey env
    let callLog := [(Pass.jsonPass, key), (Pass.summaryPass, key), (Pass.csvPass, key)]
    match json_loads (sanitizeResponse (env.respond Pass.jsonPass key).data) with
    | some v =>
      Except.ok
        (RunOut.mk v (env.respond Pass.summaryPass key) (env.respond Pass.csvPass key)
          pageImgs fs1 callLog)
    | none =>
      Except.ok
        (RunOut.mk (Json.obj []) (env.respond Pass.summaryPass key) (env.respond Pass.csvPass key)
          pageImgs
          ((fs1 ++ [FName.invalidJsonTxt]).filter (fun f => decide (¬ f ∈ images)))
          callLog)

/-- Normalization succeeds: the branch taken by `process_file` does
    not raise (pdf uploads need the temp-file write to succeed; other
    uploads need `Image.open` to succeed). -/
def normOk (env : Env) : Bool :=
  if env.fileType = "application/pdf" then env.pdfWriteOk else env.imageOpenOk

/-- Scenario-3 response of the spec: prose prefix, then fenced JSON. -/
def c2input : Str := ("Here is the data:\n```json\n\x7b\"a\": 1\x7d\n```").data

/-- A pdf upload whose rendering (`convert_from_path`) raises. -/
def envRenderFail : Env :=
  Env.mk ("application/pdf") true none true ["k"] [0] (fun _ _ => (""))

/-- A pdf upload whose write to the temporary file raises before
    `temp_pdf_path` is assigned. -/
def envWriteFail : Env :=
  Env.mk ("application/pdf") false none true ["k"] [0] (fun _ _ => (""))

/-- A one-page pdf run whose JSON response parses. -/
def envPdfOk : Env :=
  Env.mk ("application/pdf") true (some 1) true ["k"] [0]
    (fun p _ => if p = Pass.jsonPass then ("\x7b\x7d") else ("text"))

/-- A one-page pdf run whose JSON response fails to parse. -/
def envPdfBad : Env :=
  Env.mk ("application/pdf") true (some 1) true ["k"] [0]
    (fun p _ => if p = Pass.jsonPass then ("not json") else ("text"))

/-- An image upload whose JSON response fails to parse. -/
def envImgBad : Env :=
  Env.mk ("image/png") true none true ["k"] [0] (fun _ _ => ("not json"))

/-- A two-credential pool with a random stream whose later draws would
    select a different credential than the first draw. -/
def envTwoKeys : Env :=
  Env.mk ("image/png") true none true ["alpha", "beta"] [0, 1, 1] (fun _ _ => ("\x7b\x7d"))

/-- A jpeg upload (non-png raster input) with a parsing response. -/
def envJpeg : Env :=
  Env.mk ("image/jpeg") true none true ["k"] [0] (fun _ _ => ("\x7b\x7d"))

/-! Helper lemmas about the string primitives. -/

theorem lstripL_cons_ws (c : Char) (l : Str) (h : isPyWs c = true) :
    lstripL (c :: l) = lstripL l := by
  simp [lstripL, h]

theorem lstripL_cons_nonws (c : Char) (l : Str) (h : isPyWs c = false) :
    lstripL (c :: l) = c :: l := by
  simp [lstripL, h]

theorem lstripL_length_le (l : Str) : (lstripL l).length ≤ l.length := by
  induction l with
  | nil => simp [lstripL]
  | cons c cs ih =>
    by_cases h : isPyWs c = true
    · rw [lstripL_cons_ws c cs h]; exact Nat.le_trans ih (Nat.le_succ _)
    · rw [lstripL_cons_nonws c cs (by simpa using h)]

theorem lstripL_append_of_ne_nil (xs ys : Str) (h : lstripL xs ≠ []) :
    lstripL (xs ++ ys) = lstripL xs ++ ys := by
  induction xs with
  | nil => exact absurd rfl h
  | cons c cs ih =>
    by_cases hc : isPyWs c = true
    · rw [List.cons_append, lstripL_cons_ws c _ hc, lstripL_cons_ws c cs hc]
      exact ih (by rwa [lstripL_cons_ws c cs hc] at h)
    · have hc' : isPyWs c = false := by simpa using hc
      rw [List.cons_append, lstripL_cons_nonws c _ hc', lstripL_cons_nonws c cs hc',
        List.cons_append]

theorem lstripL_append_of_nil (xs ys : Str) (h : lstripL xs = []) :
    lstripL (xs ++ ys) = lstripL ys := by
  induction xs with
  | nil => rfl
  | cons c cs ih =>
    by_cases hc : isPyWs c = true
    · rw [List.cons_append, lstripL_cons_ws c _ hc]
      exact ih (by rwa [lstripL_cons_ws c cs hc] at h)
    · rw [lstripL_cons_nonws c cs (by simpa using hc)] at h
      exact absurd h (by simp)

theorem lstripL_idem (l : Str) : lstripL (lstripL l) = lstripL l := by
  induction l with
  | nil => rfl
  | cons c cs ih =>
    by_cases hc : isPyWs c = true
    · rw [lstripL_cons_ws c cs hc]; exact ih
    · have hc' : isPyWs c = false := by simpa using hc
      rw [lstripL_cons_nonws c cs hc', lstripL_cons_nonws c cs hc']

theorem rstripL_cons_nonws (c : Char) (l : Str) (h : isPyWs c = false) :
    rstripL (c :: l) = c :: rstripL l := by
  show (let r := rstripL l; if r.isEmpty then (if isPyWs c then [] else [c]) else c :: r) = _
  cases hr : rstripL l <;> simp [hr, h]

theorem rstripL_cons_ws_nil (c : Char) (l : Str) (hc : isPyWs c = true)
    (hl : rstripL l = []) : rstripL (c :: l) = [] := by
  show (let r := rstripL l; if r.isEmpty then (if isPyWs c then [] else [c]) else c :: r) = _
  simp [hl, hc]

theorem rstripL_append_of_nil (xs ys : Str) (h : rstripL ys = []) :
    rstripL (xs ++ ys) = rstripL xs := by
  induction xs with
  | nil => simpa using h
  | cons c cs ih =>
    rw [List.cons_append]
    show (let r := rstripL (cs ++ ys); if r.isEmpty then (if isPyWs c then [] else [c]) else c :: r)
      = rstripL (c :: cs)
    rw [ih]
    cases hr : rstripL cs <;> simp [rstripL, hr]

theorem rstripL_append_of_ne_nil (xs ys : Str) (h : rstripL ys ≠ []) :
    rstripL (xs ++ ys) = xs ++ rstripL ys := by
  induction xs with
  | nil => rfl
  | cons c cs ih =>
    rw [List.cons_append]
    show (let r := rstripL (cs ++ ys); if r.isEmpty then (if isPyWs c then [] else [c]) else c :: r)
      = _
    rw [ih]
    have : (cs ++ rstripL ys).isEmpty = false := by
      cases hr : rstripL ys
      · exact absurd hr h
      · cases cs <;> simp [hr]
    simp [this]

theorem rstripL_singleton_nonws (c : Char) (h : isPyWs c = false) : rstripL [c] = [c] := by
  simp [rstripL, h]

theorem rstripL_singleton_ws (c : Char) (h : isPyWs c = true) : rstripL [c] = [] := by
  simp [rstripL, h]

theorem rstripL_last_nonws (l : Str) (c : Char) (h : isPyWs c = false) :
    rstripL (l ++ [c]) = l ++ [c] := by
  rw [rstripL_append_of_ne_nil l [c] (by rw [rstripL_singleton_nonws c h]; simp),
    rstripL_singleton_nonws c h]

theorem rstripL_idem (l : Str) : rstripL (rstripL l) = rstripL l := by
  induction l with
  | nil => rfl
  | cons c cs ih =>
    cases hr : rstripL cs with
    | nil =>
      by_cases hc : isPyWs c = true
      · rw [rstripL_cons_ws_nil c cs hc hr]; rfl
      · have hc' : isPyWs c = false := by simpa using hc
        have e1 : rstripL (c :: cs) = [c] := by
          show (let r := rstripL cs;
            if r.isEmpty then (if isPyWs c then [] else [c]) else c :: r) = _
          simp [hr, hc']
        rw [e1, rstripL_singleton_nonws c hc']
    | cons d ds =>
      have e1 : rstripL (c :: cs) = c :: d :: ds := by
        show (let r := rstripL cs;
          if r.isEmpty then (if isPyWs c then [] else [c]) else c :: r) = _
        simp [hr]
      have e2 : rstripL (d :: ds) = d :: ds := by rw [← hr]; rw [hr] at ih; rw [hr]; exact ih
      rw [e1]
      show (let r := rstripL (d :: ds);
        if r.isEmpty then (if isPyWs c then [] else [c]) else c :: r) = _
      simp [e2]

theorem rstripL_length_le (l : Str) : (rstripL l).length ≤ l.length := by
  induction l with
  | nil => simp [rstripL]
  | cons c cs ih =>
    show (let r := rstripL cs;
      if r.isEmpty then (if isPyWs c then [] else [c]) else c :: r).length ≤ _
    cases hr : rstripL cs with
    | nil => by_cases hc : isPyWs c = true <;> simp [hc]
    | cons d ds =>
      simp only [List.isEmpty_cons, if_neg]
      show (c :: (d :: ds)).length ≤ (c :: cs).length
      have := ih
      rw [hr] at this
      simpa using this

theorem rstripL_ne_append_ws (m t : Str) (c : Char) (hc : isPyWs c = true) :
    rstripL m ≠ t ++ [c] := by
  intro he
  have h1 : rstripL (rstripL m) = rstripL m := rstripL_idem m
  rw [he, rstripL_append_of_nil t [c] (rstripL_singleton_ws c hc)] at h1
  have h2 : (rstripL t).length ≤ t.length := rstripL_length_le t
  rw [h1] at h2
  simp at h2

theorem lstripL_rstripL_fix (m : Str) (h : lstripL m = m) :
    lstripL (rstripL m) = rstripL m := by
  cases m with
  | nil => rfl
  | cons c t =>
    have hc : isPyWs c = false := by
      by_contra hcc
      have hcc' : isPyWs c = true := by simpa using hcc
      rw [lstripL_cons_ws c t hcc'] at h
      have := lstripL_length_le t
      rw [h] at this
      simp at this
    rw [rstripL_cons_nonws c t hc, lstripL_cons_nonws _ _ hc]

theorem stripL_idem (l : Str) : stripL (stripL l) = stripL l := by
  unfold stripL
  rw [lstripL_rstripL_fix (lstripL l) (lstripL_idem l), rstripL_idem]

theorem hasPre_refl_append (p t : Str) : hasPre p (p ++ t) = true := by
  induction p with
  | nil => rfl
  | cons a as ih => simpa [hasPre] using ih

theorem hasPre_elim (p l : Str) (h : hasPre p l = true) : ∃ t, l = p ++ t := by
  induction p generalizing l with
  | nil => exact ⟨l, rfl⟩
  | cons a as ih =>
    cases l with
    | nil => exact absurd h (by simp [hasPre])
    | cons b bs =>
      simp only [hasPre, Bool.and_eq_true, decide_eq_true_eq] at h
      obtain ⟨t, ht⟩ := ih bs h.2
      exact ⟨t, by rw [h.1, ht]; rfl⟩

theorem hasSuf_intro (p t : Str) : hasSuf p (t ++ p) = true := by
  unfold hasSuf
  rw [List.reverse_append]
  exact hasPre_refl_append p.reverse t.reverse

theorem hasSuf_elim (p l : Str) (h : hasSuf p l = true) : ∃ t, l = t ++ p := by
  obtain ⟨t, ht⟩ := hasPre_elim p.reverse l.reverse h
  refine ⟨t.reverse, ?_⟩
  have := congrArg List.reverse ht
  rwa [List.reverse_reverse, List.reverse_append, List.reverse_reverse] at this

theorem drop_len_append (p t : Str) : (p ++ t).drop p.length = t := by
  induction p with
  | nil => rfl
  | cons a as ih => simp [ih]

theorem dropSuf_append (p t : Str) : dropSuf p.length (t ++ p) = t := by
  unfold dropSuf
  rw [List.reverse_append, ← List.length_reverse p, drop_len_append, List.reverse_reverse]

/-! Lemmas about the sanitizer. -/

theorem stripOpenFence_pos (t : Str) : stripOpenFence (fenceOpen ++ t) = lstripL t := by
  unfold stripOpenFence
  rw [if_pos (hasPre_refl_append fenceOpen t),
    show (7 : Nat) = fenceOpen.length from rfl, drop_len_append]

theorem stripOpenFence_neg (l : Str) (h : hasPre fenceOpen l = false) :
    stripOpenFence l = l := by
  unfold stripOpenFence
  rw [h]
  rfl

theorem stripCloseFence_pos (t : Str) : stripCloseFence (t ++ fenceClose) = rstripL t := by
  unfold stripCloseFence
  rw [if_pos (hasSuf_intro fenceClose t),
    show (3 : Nat) = fenceClose.length from rfl, dropSuf_append]

theorem stripCloseFence_neg (l : Str) (h1 : hasSuf fenceClose l = false)
    (h2 : hasSuf (("```\n").data) l = false) : stripCloseFence l = l := by
  unfold stripCloseFence
  rw [h1, h2]
  rfl

/-- The sanitizer on a fenced payload: stripping the fence markers
    from `` ```json\n<J>\n``` `` leaves exactly the trimmed payload. -/
theorem sanitize_fenced (J : Str) : sanitizeResponse (fenced J) = stripL J := by
  have hdata : fenced J = fenceOpen ++ ('\n' :: (J ++ ('\n' :: fenceClose))) := by
    show ("```json\n").data ++ J ++ ("\n```").data = _
    rw [show ("```json\n").data = fenceOpen ++ ['\n'] from rfl,
      show ("\n```").data = '\n' :: fenceClose from rfl]
    simp
  have hstrip : stripL (fenced J) = fenced J := by
    unfold stripL
    have e1 : lstripL (fenced J) = fenced J := by
      rw [show fenced J = '`' :: (("``json\n").data ++ J ++ ("\n```").data) from by
        show ("```json\n").data ++ J ++ ("\n```").data = _
        rfl]
      exact lstripL_cons_nonws _ _ (by decide)
    rw [e1]
    rw [show fenced J = (("```json\n").data ++ J ++ ("\n``").data) ++ ['`'] from by
      show ("```json\n").data ++ J ++ ("\n```").data = _
      rw [show ("\n```").data = ("\n``").data ++ ['`'] from rfl]
      simp]
    exact rstripL_last_nonws _ _ (by decide)
  unfold sanitizeResponse
  rw [hstrip, hdata, stripOpenFence_pos, lstripL_cons_ws _ _ (by decide)]
  cases hJ : lstripL J with
  | nil =>
    rw [lstripL_append_of_nil J _ hJ]
    rw [show lstripL ('\n' :: fenceClose) = [] ++ fenceClose from by decide]
    rw [stripCloseFence_pos]
    unfold stripL
    rw [hJ]
  | cons c t =>
    rw [lstripL_append_of_ne_nil J _ (by rw [hJ]; simp)]
    rw [show lstripL J ++ ('\n' :: fenceClose) = (lstripL J ++ ['\n']) ++ fenceClose from by simp]
    rw [stripCloseFence_pos,
      rstripL_append_of_nil (lstripL J) ['\n'] (rstripL_singleton_ws '\n' (by decide))]
    rfl

/-! Lemmas about the parser on inputs that cannot start a JSON value. -/

theorem parseVal_cons_none (f : Nat) (c : Char) (l : Str)
    (h : ¬ (c = 'n' ∨ c = 't' ∨ c = 'f' ∨ c = 'N' ∨ c = 'I' ∨ c = '"' ∨ c = '[' ∨
      c = '\x7b' ∨ c = '-' ∨ c.isDigit = true)) :
    parseVal f (c :: l) = none := by
  cases f with
  | zero => rfl
  | succ n =>
    show parseVal (n + 1) (c :: l) = none
    rw [parseVal]
    rw [if_neg (fun hc => h (Or.inl hc)),
      if_neg (fun hc => h (Or.inr (Or.inl hc))),
      if_neg (fun hc => h (Or.inr (Or.inr (Or.inl hc)))),
      if_neg (fun hc => h (Or.inr (Or.inr (Or.inr (Or.inl hc))))),
      if_neg (fun hc => h (Or.inr (Or.inr (Or.inr (Or.inr (Or.inl hc)))))),
      if_neg (fun hc => h (Or.inr (Or.inr (Or.inr (Or.inr (Or.inr (Or.inl hc))))))),
      if_neg (fun hc => h (Or.inr (Or.inr (Or.inr (Or.inr (Or.inr (Or.inr (Or.inl hc)))))))),
      if_neg (fun hc => h (Or.inr (Or.inr (Or.inr (Or.inr (Or.inr (Or.inr (Or.inr (Or.inl hc))))))))),
      if_neg (fun hc => h (Or.inr (Or.inr (Or.inr (Or.inr (Or.inr (Or.inr (Or.inr (Or.inr (Or.inl hc)))))))))),
      if_neg (fun hc => h (Or.inr (Or.inr (Or.inr (Or.inr (Or.inr (Or.inr (Or.inr (Or.inr (Or.inr hc))))))))))]

theorem json_loads_cons_none (c : Char) (cs : Str) (hj : isJsonWs c = false)
    (h : ¬ (c = 'n' ∨ c = 't' ∨ c = 'f' ∨ c = 'N' ∨ c = 'I' ∨ c = '"' ∨ c = '[' ∨
      c = '\x7b' ∨ c = '-' ∨ c.isDigit = true)) :
    json_loads (c :: cs) = none := by
  unfold json_loads
  rw [show skipJWs (c :: cs) = c :: cs from by simp [skipJWs, hj],
    parseVal_cons_none _ c cs h]

/-! Evaluation lemmas for the four regular paths of `process_file`. -/

/-- The `except`-block cleanup: appending the diagnostic file and then
    removing every page-image file leaves only the diagnostic file. -/
theorem pageCleanup (n : Nat) :
    (((List.range n).map FName.pageFile) ++ [FName.invalidJsonTxt]).filter
      (fun f => decide (¬ f ∈ (List.range n).map FName.pageFile)) = [FName.invalidJsonTxt] := by
  rw [List.filter_append]
  have h1 : ((List.range n).map FName.pageFile).filter
      (fun f => decide (¬ f ∈ (List.range n).map FName.pageFile)) = [] := by
    rw [List.filter_eq_nil_iff]
    intro a ha
    simp [ha]
  have h2 : [FName.invalidJsonTxt].filter
      (fun f => decide (¬ f ∈ (List.range n).map FName.pageFile)) = [FName.invalidJsonTxt] := by
    have : ¬ FName.invalidJsonTxt ∈ (List.range n).map FName.pageFile := by
      simp
    simp [List.filter, this]
  rw [h1, h2]
  rfl

/-- A pdf run with `n` rendered pages whose JSON response parses. -/
theorem process_file_pdf_some (env : Env) (n : Nat) (v : Json)
    (hft : env.fileType = "application/pdf") (hw : env.pdfWriteOk = true)
    (hr : env.renderedPages = some n)
    (hv : json_loads (sanitizeResponse (env.respond Pass.jsonPass (chosenKey env)).data) = some v) :
    process_file env = Except.ok (RunOut.mk v
      (env.respond Pass.summaryPass (chosenKey env)) (env.respond Pass.csvPass (chosenKey env))
      ((List.range n).map (fun i => PageImage.mk ("image/png") (FName.pageFile i)))
      ((List.range n).map FName.pageFile)
      [(Pass.jsonPass, chosenKey env), (Pass.summaryPass, chosenKey env),
        (Pass.csvPass, chosenKey env)]) := by
  unfold process_file convert_pdf_to_images
  rw [hft, hw, hr]
  simp only [if_pos rfl, if_pos]
  rw [hv]
  simp [List.map_map, Function.comp]

/-- A pdf run with `n` rendered pages whose JSON response fails to
    parse: the diagnostic file is written and the page files removed. -/
theorem process_file_pdf_none (env : Env) (n : Nat)
    (hft : env.fileType = "application/pdf") (hw : env.pdfWriteOk = true)
    (hr : env.renderedPages = some n)
    (hv : json_loads (sanitizeResponse (env.respond Pass.jsonPass (chosenKey env)).data) = none) :
    process_file env = Except.ok (RunOut.mk (Json.obj [])
      (env.respond Pass.summaryPass (chosenKey env)) (env.respond Pass.csvPass (chosenKey env))
      ((List.range n).map (fun i => PageImage.mk ("image/png") (FName.pageFile i)))
      [FName.invalidJsonTxt]
      [(Pass.jsonPass, chosenKey env), (Pass.summaryPass, chosenKey env),
        (Pass.csvPass, chosenKey env)]) := by
  unfold process_file convert_pdf_to_images
  rw [hft, hw, hr]
  simp only [if_pos rfl, if_pos]
  rw [hv]
  simp only [List.nil_append]
  rw [pageCleanup n]
  simp [List.map_map, Function.comp]

/-- A non-pdf (image) run whose JSON response parses. -/
theorem process_file_img_some (env : Env) (v : Json)
    (hft : ¬ env.fileType = "application/pdf") (hop : env.imageOpenOk = true)
    (hv : json_loads (sanitizeResponse (env.respond Pass.jsonPass (chosenKey env)).data) = some v) :
    process_file env = Except.ok (RunOut.mk v
      (env.respond Pass.summaryPass (chosenKey env)) (env.respond Pass.csvPass (chosenKey env))
      [PageImage.mk ("image/png") FName.tempImage]
      [FName.tempImage]
      [(Pass.jsonPass, chosenKey env), (Pass.summaryPass, chosenKey env),
        (Pass.csvPass, chosenKey env)]) := by
  unfold process_file
  rw [if_neg hft, hop]
  simp only [if_pos rfl]
  rw [hv]
  simp

/-- A non-pdf (image) run whose JSON response fails to parse. -/
theorem process_file_img_none (env : Env)
    (hft : ¬ env.fileType = "application/pdf") (hop : env.imageOpenOk = true)
    (hv : json_loads (sanitizeResponse (env.respond Pass.jsonPass (chosenKey env)).data) = none) :
    process_file env = Except.ok (RunOut.mk (Json.obj [])
      (env.respond Pass.summaryPass (chosenKey env)) (env.respond Pass.csvPass (chosenKey env))
      [PageImage.mk ("image/png") FName.tempImage]
      [FName.invalidJsonTxt]
      [(Pass.jsonPass, chosenKey env), (Pass.summaryPass, chosenKey env),
        (Pass.csvPass, chosenKey env)]) := by
  unfold process_file
  rw [if_neg hft, hop]
  simp only [if_pos rfl]
  rw [hv]
  simp [List.filter]

/-- A pdf run whose rendering raised (caught and logged by the code,
    which then proceeds with zero pages) and whose JSON response
    parses. -/
theorem process_file_pdf_rfail_some (env : Env) (v : Json)
    (hft : env.fileType = "application/pdf") (hw : env.pdfWriteOk = true)
    (hr : env.renderedPages = none)
    (hv : json_loads (sanitizeResponse (env.respond Pass.jsonPass (chosenKey env)).data) = some v) :
    process_file env = Except.ok (RunOut.mk v
      (env.respond Pass.summaryPass (chosenKey env)) (env.respond Pass.csvPass (chosenKey env))
      [] []
      [(Pass.jsonPass, chosenKey env), (Pass.summaryPass, chosenKey env),
        (Pass.csvPass, chosenKey env)]) := by
  unfold process_file convert_pdf_to_images
  rw [hft, hw, hr]
  simp only [if_pos rfl, if_pos]
  rw [hv]
  rfl

/-- A pdf run whose rendering raised and whose JSON response fails to
    parse. -/
theorem process_file_pdf_rfail_none (env : Env)
    (hft : env.fileType = "application/pdf") (hw : env.pdfWriteOk = true)
    (hr : env.renderedPages = none)
    (hv : json_loads (sanitizeResponse (env.respond Pass.jsonPass (chosenKey env)).data) = none) :
    process_file env = Except.ok (RunOut.mk (Json.obj [])
      (env.respond Pass.summaryPass (chosenKey env)) (env.respond Pass.csvPass (chosenKey env))
      [] [FName.invalidJsonTxt]
      [(Pass.jsonPass, chosenKey env), (Pass.summaryPass, chosenKey env),
        (Pass.csvPass, chosenKey env)]) := by
  unfold process_file convert_pdf_to_images
  rw [hft, hw, hr]
  simp only [if_pos rfl, if_pos]
  rw [hv]
  simp [List.filter]

/-! Claim theorems. -/

/-- C1 (counterexample): the claim says a failed page rendering makes
    `convert_pdf_to_images` fail with a `DocumentConversionError`.  In
    the code the bare `except` swallows the rendering error and the
    function returns normally with the empty page list
    (`envRenderFail`: a pdf whose `convert_from_path` raises). -/
theorem c1_counterexample :
    ¬ (∀ (env : Env) (fs : List FName), env.renderedPages = none →
        ∃ e, (convert_pdf_to_images env fs).1 = Except.error e) := by
  intro h
  obtain ⟨e, he⟩ := h envRenderFail [] rfl
  rw [show (convert_pdf_to_images envRenderFail []).1 = Except.ok [] from rfl] at he
  exact Except.noConfusion he

/-- C1 (amended): whenever the temp-file write succeeds,
    `convert_pdf_to_images` returns normally: on a rendering failure it
    catches the exception and returns the empty page list (no error is
    raised, no `DocumentConversionError` exists); on success it returns
    the page files in page order. -/
theorem c1_amended_theorem (env : Env) (fs : List FName) (hw : env.pdfWriteOk = true) :
    (env.renderedPages = none → convert_pdf_to_images env fs = (Except.ok [], fs)) ∧
    (∀ n, env.renderedPages = some n →
      convert_pdf_to_images env fs
        = (Except.ok ((List.range n).map FName.pageFile),
           fs ++ (List.range n).map FName.pageFile)) := by
  constructor
  · intro h
    simp [convert_pdf_to_images, hw, h]
  · intro n h
    simp [convert_pdf_to_images, hw, h]

/-- C1 (witness): the amended statement evaluated on the concrete
    rendering-failure environment. -/
theorem c1_amended_witness :
    (envRenderFail.renderedPages = none →
      convert_pdf_to_images envRenderFail [] = (Except.ok [], [])) ∧
    (∀ n, envRenderFail.renderedPages = some n →
      convert_pdf_to_images envRenderFail []
        = (Except.ok ((List.range n).map FName.pageFile),
           [] ++ (List.range n).map FName.pageFile)) :=
  c1_amended_theorem envRenderFail [] rfl

/-- C2 (counterexample): on the spec's scenario-3 input (prose prefix,
    then fenced JSON), sanitize-then-parse does not yield the inner
    object; the anchored `^```json` pattern does not match past the
    prose, parsing fails, and the result is `none`. -/
theorem c2_counterexample :
    ¬ (json_loads (sanitizeResponse c2input)
        = some (Json.obj [(("a").data, Json.num (("1").data))])) := by
  intro hcon
  rw [show json_loads (sanitizeResponse c2input) = none from rfl] at hcon
  exact Option.noConfusion hcon

/-- C2 (amended): the sanitizer repairs only a fence at the very start
    of the trimmed response.  For a prose-prefixed fenced response it
    removes just the trailing fence and trailing whitespace, keeping
    the prose and the opening fence, and the sanitized text then fails
    to parse (so the pipeline degrades to the empty mapping). -/
theorem c2_amended_theorem (J : Str) (hJ : rstripL J ≠ []) :
    sanitizeResponse (("Here is the data:\n```json\n").data ++ J ++ ("\n```").data)
        = ("Here is the data:\n```json\n").data ++ rstripL J ∧
    json_loads (("Here is the data:\n```json\n").data ++ rstripL J) = none := by
  constructor
  · unfold sanitizeResponse
    have e1 : lstripL (("Here is the data:\n```json\n").data ++ J ++ ("\n```").data)
        = ("Here is the data:\n```json\n").data ++ J ++ ("\n```").data := by
      rw [show ("Here is the data:\n```json\n").data ++ J ++ ("\n```").data
          = 'H' :: (("ere is the data:\n```json\n").data ++ J ++ ("\n```").data) from rfl]
      exact lstripL_cons_nonws _ _ (by decide)
    have e2 : rstripL (("Here is the data:\n```json\n").data ++ J ++ ("\n```").data)
        = ("Here is the data:\n```json\n").data ++ J ++ ("\n```").data := by
      rw [show ("\n```").data = ("\n``").data ++ ['`'] from rfl, ← List.append_assoc]
      exact rstripL_last_nonws _ _ (by decide)
    have hstrip : stripL (("Here is the data:\n```json\n").data ++ J ++ ("\n```").data)
        = ("Here is the data:\n```json\n").data ++ J ++ ("\n```").data := by
      unfold stripL
      rw [e1, e2]
    have hopen : hasPre fenceOpen
        (("Here is the data:\n```json\n").data ++ J ++ ("\n```").data) = false := by
      rw [show ("Here is the data:\n```json\n").data ++ J ++ ("\n```").data
          = 'H' :: (("ere is the data:\n```json\n").data ++ J ++ ("\n```").data) from rfl]
      rw [show fenceOpen = '`' :: ("``json").data from rfl]
      simp [hasPre]
    rw [hstrip, stripOpenFence_neg _ hopen]
    rw [show ("\n```").data = ['\n'] ++ fenceClose from rfl, ← List.append_assoc]
    rw [stripCloseFence_pos,
      rstripL_append_of_nil _ ['\n'] (rstripL_singleton_ws '\n' (by decide)),
      rstripL_append_of_ne_nil _ J hJ]
  · rw [show ("Here is the data:\n```json\n").data ++ rstripL J
        = 'H' :: (("ere is the data:\n```json\n").data ++ rstripL J) from rfl]
    exact json_loads_cons_none 'H' _ (by decide) (by decide)

/-- C2 (witness): the amended statement evaluated on the inner object
    text of the scenario-3 input. -/
theorem c2_amended_witness :
    sanitizeResponse (("Here is the data:\n```json\n").data ++ ("\x7b\"a\": 1\x7d").data
        ++ ("\n```").data)
      = ("Here is the data:\n```json\n").data ++ rstripL (("\x7b\"a\": 1\x7d").data) ∧
    json_loads (("Here is the data:\n```json\n").data ++ rstripL (("\x7b\"a\": 1\x7d").data))
      = none :=
  c2_amended_theorem (("\x7b\"a\": 1\x7d").data) (by decide)

/-- C3 (counterexample): the claim says no page-image artifact
    persists past the pipeline invocation on any exit path.  On the
    successful-parse path (`envPdfOk`) the page file of the rendered
    page is still present when `process_file` returns: the cleanup
    loop lives inside the `except` block and never runs on success. -/
theorem c3_counterexample :
    ¬ (∀ (env : Env) (out : RunOut), process_file env = Except.ok out →
        ∀ i, ¬ FName.pageFile i ∈ out.fsFinal) := by
  intro h
  exact h envPdfOk
    (RunOut.mk (Json.obj []) ("text") ("text")
      [PageImage.mk ("image/png") (FName.pageFile 0)] [FName.pageFile 0]
      [(Pass.jsonPass, "k"), (Pass.summaryPass, "k"), (Pass.csvPass, "k")])
    rfl 0 (by decide)

/-- C3 (amended): transient page-image files are released only on the
    JSON-parse-failure path.  For a pdf run with `n` rendered pages, a
    successful parse leaves all `n` page files behind, while a parse
    failure removes them (leaving only the diagnostic file). -/
theorem c3_amended_theorem (env : Env) (n : Nat)
    (hft : env.fileType = "application/pdf") (hw : env.pdfWriteOk = true)
    (hr : env.renderedPages = some n) :
    (∀ v, json_loads (sanitizeResponse (env.respond Pass.jsonPass (chosenKey env)).data)
        = some v →
      ∃ out, process_file env = Except.ok out ∧
        out.fsFinal = (List.range n).map FName.pageFile) ∧
    (json_loads (sanitizeResponse (env.respond Pass.jsonPass (chosenKey env)).data) = none →
      ∃ out, process_file env = Except.ok out ∧ out.fsFinal = [FName.invalidJsonTxt]) := by
  constructor
  · intro v hv
    exact ⟨_, process_file_pdf_some env n v hft hw hr hv, rfl⟩
  · intro hv
    exact ⟨_, process_file_pdf_none env n hft hw hr hv, rfl⟩

/-- C3 (witness): the amended statement's successful-parse branch on
    the concrete one-page pdf run. -/
theorem c3_amended_witness :
    ∃ out, process_file envPdfOk = Except.ok out ∧
      out.fsFinal = (List.range 1).map FName.pageFile :=
  (c3_amended_theorem envPdfOk 1 rfl rfl rfl).1 (Json.obj []) rfl

/-- C4 (counterexample): the claim says each of the three extraction
    passes performs its own independent random credential selection
    (draw `i` of the stream for call `i`).  With pool
    `["alpha", "beta"]` and stream `[0, 1, 1]` that would give the
    summary and CSV passes the key `"beta"`; the code configures the
    key once, and all three calls use `"alpha"`. -/
theorem c4_counterexample :
    ¬ (∀ (env : Env) (out : RunOut), process_file env = Except.ok out →
        out.callLog
          = [(Pass.jsonPass, get_random_api_key env.keys (env.randStream.getD 0 0)),
             (Pass.summaryPass, get_random_api_key env.keys (env.randStream.getD 1 0)),
             (Pass.csvPass, get_random_api_key env.keys (env.randStream.getD 2 0))]) := by
  intro h
  have hc := h envTwoKeys
    (RunOut.mk (Json.obj []) ("\x7b\x7d") ("\x7b\x7d")
      [PageImage.mk ("image/png") FName.tempImage] [FName.tempImage]
      [(Pass.jsonPass, "alpha"), (Pass.summaryPass, "alpha"), (Pass.csvPass, "alpha")])
    rfl
  exact absurd hc (by decide)

/-- C4 (amended): one credential is selected per document run — the
    single `random.choice` draw at `genai.configure` time — and the
    same key is used by all three passes' backend calls. -/
theorem c4_amended_theorem (env : Env) (h : normOk env = true) :
    ∃ out, process_file env = Except.ok out ∧
      out.callLog = [(Pass.jsonPass, chosenKey env), (Pass.summaryPass, chosenKey env),
        (Pass.csvPass, chosenKey env)] := by
  by_cases hft : env.fileType = "application/pdf"
  · have hw : env.pdfWriteOk = true := by
      unfold normOk at h
      rwa [if_pos hft] at h
    cases hr : env.renderedPages with
    | none =>
      cases hv : json_loads (sanitizeResponse (env.respond Pass.jsonPass (chosenKey env)).data) with
      | none => exact ⟨_, process_file_pdf_rfail_none env hft hw hr hv, rfl⟩
      | some v => exact ⟨_, process_file_pdf_rfail_some env v hft hw hr hv, rfl⟩
    | some n =>
      cases hv : json_loads (sanitizeResponse (env.respond Pass.jsonPass (chosenKey env)).data) with
      | none => exact ⟨_, process_file_pdf_none env n hft hw hr hv, rfl⟩
      | some v => exact ⟨_, process_file_pdf_some env n v hft hw hr hv, rfl⟩
  · have hop : env.imageOpenOk = true := by
      unfold normOk at h
      rwa [if_neg hft] at h
    cases hv : json_loads (sanitizeResponse (env.respond Pass.jsonPass (chosenKey env)).data) with
    | none => exact ⟨_, process_file_img_none env hft hop hv, rfl⟩
    | some v => exact ⟨_, process_file_img_some env v hft hop hv, rfl⟩

/-- C4 (witness): the amended statement on the two-credential run. -/
theorem c4_amended_witness :
    ∃ out, process_file envTwoKeys = Except.ok out ∧
      out.callLog = [(Pass.jsonPass, chosenKey envTwoKeys),
        (Pass.summaryPass, chosenKey envTwoKeys), (Pass.csvPass, chosenKey envTwoKeys)] :=
  c4_amended_theorem envTwoKeys rfl

/-- C5 (confirmed): whenever the sanitized JSON response fails to
    parse, `process_file` still returns normally and the
    `extracted_data` handed downstream is the empty mapping. -/
theorem c5_theorem (env : Env) (h : normOk env = true)
    (hv : json_loads (sanitizeResponse (env.respond Pass.jsonPass (chosenKey env)).data) = none) :
    ∃ out, process_file env = Except.ok out ∧ out.extracted_data = Json.obj [] := by
  by_cases hft : env.fileType = "application/pdf"
  · have hw : env.pdfWriteOk = true := by
      unfold normOk at h
      rwa [if_pos hft] at h
    cases hr : env.renderedPages with
    | none => exact ⟨_, process_file_pdf_rfail_none env hft hw hr hv, rfl⟩
    | some n => exact ⟨_, process_file_pdf_none env n hft hw hr hv, rfl⟩
  · have hop : env.imageOpenOk = true := by
      unfold normOk at h
      rwa [if_neg hft] at h
    exact ⟨_, process_file_img_none env hft hop hv, rfl⟩

/-- C5 (witness): the unparseable image run. -/
theorem c5_witness :
    ∃ out, process_file envImgBad = Except.ok out ∧ out.extracted_data = Json.obj [] :=
  c5_theorem envImgBad rfl rfl

/-- C6 (confirmed): when the JSON pass's response fails to parse, the
    summary and CSV passes are still performed (they appear in the
    call log) and the returned triple carries the empty mapping
    together with the texts returned by those passes. -/
theorem c6_theorem (env : Env) (h : normOk env = true)
    (hv : json_loads (sanitizeResponse (env.respond Pass.jsonPass (chosenKey env)).data) = none) :
    ∃ out, process_file env = Except.ok out ∧
      out.extracted_data = Json.obj [] ∧
      out.summary_text = env.respond Pass.summaryPass (chosenKey env) ∧
      out.csv_text = env.respond Pass.csvPass (chosenKey env) ∧
      (Pass.summaryPass, chosenKey env) ∈ out.callLog ∧
      (Pass.csvPass, chosenKey env) ∈ out.callLog := by
  by_cases hft : env.fileType = "application/pdf"
  · have hw : env.pdfWriteOk = true := by
      unfold normOk at h
      rwa [if_pos hft] at h
    cases hr : env.renderedPages with
    | none =>
      exact ⟨_, process_file_pdf_rfail_none env hft hw hr hv, rfl, rfl, rfl, by simp, by simp⟩
    | some n =>
      exact ⟨_, process_file_pdf_none env n hft hw hr hv, rfl, rfl, rfl, by simp, by simp⟩
  · have hop : env.imageOpenOk = true := by
      unfold normOk at h
      rwa [if_neg hft] at h
    exact ⟨_, process_file_img_none env hft hop hv, rfl, rfl, rfl, by simp, by simp⟩

/-- C6 (witness): the unparseable pdf run. -/
theorem c6_witness :
    ∃ out, process_file envPdfBad = Except.ok out ∧
      out.extracted_data = Json.obj [] ∧
      out.summary_text = envPdfBad.respond Pass.summaryPass (chosenKey envPdfBad) ∧
      out.csv_text = envPdfBad.respond Pass.csvPass (chosenKey envPdfBad) ∧
      (Pass.summaryPass, chosenKey envPdfBad) ∈ out.callLog ∧
      (Pass.csvPass, chosenKey envPdfBad) ∈ out.callLog :=
  c6_theorem envPdfBad rfl rfl

/-- C7 (confirmed): round-trip.  For a JSON object text `J` (it starts
    with an opening brace and ends with a closing brace, as in the
    spec's `` ```json\n{...}\n``` `` form, and parses to an object),
    sanitizing the fenced form and then parsing yields exactly the
    mapping obtained by parsing `J` directly. -/
theorem c7_roundtrip (J : Str) (kvs : List (Str × Json))
    (hHead : ∃ t, J = '\x7b' :: t)
    (hLast : ∃ t, J = t ++ ['\x7d'])
    (hObj : json_loads J = some (Json.obj kvs)) :
    json_loads (sanitizeResponse (fenced J)) = some (Json.obj kvs) := by
  obtain ⟨t1, h1⟩ := hHead
  obtain ⟨t2, h2⟩ := hLast
  have hs : stripL J = J := by
    unfold stripL
    have e1 : lstripL J = J := by
      rw [h1]
      exact lstripL_cons_nonws _ _ (by decide)
    rw [e1, h2]
    exact rstripL_last_nonws _ _ (by decide)
  rw [sanitize_fenced, hs, hObj]

/-- C7 (witness): the round trip on the concrete object text. -/
theorem c7_witness :
    json_loads (sanitizeResponse (fenced (("\x7b\"a\": 1\x7d").data)))
      = some (Json.obj [(("a").data, Json.num (("1").data))]) :=
  c7_roundtrip (("\x7b\"a\": 1\x7d").data) [(("a").data, Json.num (("1").data))]
    ⟨("\"a\": 1\x7d").data, rfl⟩ ⟨("\x7b\"a\": 1").data, by decide⟩ rfl

/-- C8 (confirmed): on fence-free text (the trimmed text neither
    starts with the ```json marker nor ends with the ``` marker) the
    sanitizer is exactly the whitespace trim, and applying it twice
    equals applying it once. -/
theorem c8_idempotent (t : Str)
    (h1 : hasPre fenceOpen (stripL t) = false)
    (h2 : hasSuf fenceClose (stripL t) = false) :
    sanitizeResponse t = stripL t ∧
    sanitizeResponse (sanitizeResponse t) = sanitizeResponse t := by
  have h3 : hasSuf (("```\n").data) (stripL t) = false := by
    by_contra hcc
    have hcc' : hasSuf (("```\n").data) (stripL t) = true := by simpa using hcc
    obtain ⟨y, hy⟩ := hasSuf_elim _ _ hcc'
    rw [show ("```\n").data = ("```").data ++ ['\n'] from rfl, ← List.append_assoc] at hy
    exact rstripL_ne_append_ws (lstripL t) _ '\n' (by decide) hy
  have key : sanitizeResponse t = stripL t := by
    unfold sanitizeResponse
    rw [stripOpenFence_neg _ h1, stripCloseFence_neg _ h2 h3]
  refine ⟨key, ?_⟩
  rw [key]
  unfold sanitizeResponse
  rw [stripL_idem, stripOpenFence_neg _ h1, stripCloseFence_neg _ h2 h3]

/-- C8 (witness): idempotence on concrete fence-free JSON text with
    surrounding whitespace. -/
theorem c8_witness :
    sanitizeResponse (("  \x7b\"a\": 1\x7d  ").data)
        = stripL (("  \x7b\"a\": 1\x7d  ").data) ∧
    sanitizeResponse (sanitizeResponse (("  \x7b\"a\": 1\x7d  ").data))
        = sanitizeResponse (("  \x7b\"a\": 1\x7d  ").data) :=
  c8_idempotent (("  \x7b\"a\": 1\x7d  ").data) (by decide) (by decide)

/-- C9 (confirmed): for every non-pdf upload that PIL accepts,
    `process_file` builds exactly one page image, tagged with MIME
    type `image/png` (the re-encoded `temp_image.png`), regardless of
    the declared raster format. -/
theorem c9_theorem (env : Env) (hft : ¬ env.fileType = "application/pdf")
    (hop : env.imageOpenOk = true) :
    ∃ out, process_file env = Except.ok out ∧
      out.pages = [PageImage.mk ("image/png") FName.tempImage] := by
  cases hv : json_loads (sanitizeResponse (env.respond Pass.jsonPass (chosenKey env)).data) with
  | none => exact ⟨_, process_file_img_none env hft hop hv, rfl⟩
  | some v => exact ⟨_, process_file_img_some env v hft hop hv, rfl⟩

/-- C9 (witness): the jpeg upload. -/
theorem c9_witness :
    ∃ out, process_file envJpeg = Except.ok out ∧
      out.pages = [PageImage.mk ("image/png") FName.tempImage] :=
  c9_theorem envJpeg (by decide) rfl

/-- C10 (code bug): when the write of the uploaded bytes to the
    temporary pdf raises before `temp_pdf_path` is assigned, the
    `finally` block evaluates `os.unlink(temp_pdf_path)` on an unbound
    local and raises a secondary `NameError` (and the temporary pdf
    file persists), contradicting the claim that the function
    terminates without a secondary cleanup error. -/
theorem c10_name_error :
    convert_pdf_to_images envWriteFail []
      = (Except.error PyErr.nameError, [FName.tempPdf]) := rfl
